import Mathlib

/-!
Shallow embedding of the feature-extraction transforms in
`transform/__init__.py` (SpectrogramTransformer, StatsTransformer,
WhitenerTransformer, FuncTransformer, FilterTransformer, DiffTransformer).

Real samples are modelled as rationals; numpy ndarrays are modelled either
as nested lists (rows of a batch) or, for fixed-shape 3-D batches, as
functions on `Fin` indices together with their shape.  External library
calls (matplotlib `mlab.specgram`, numpy `log10`, the fitted sklearn PCA
model, the injected filter functions, the values drawn by
`np.random.rand`) are taken as explicit parameters, so every theorem below
quantifies over the external collaborators.
-/

/-- Python `int()` applied to a rational: truncation toward zero. -/
def pyInt (q : ℚ) : ℤ :=
  if 0 ≤ q then ⌊q⌋ else ⌈q⌉

/-- Configuration of `SpectrogramTransformer`, as stored by `__init__`.
`dtype` (the output precision) and `window` (forwarded verbatim to
`mlab.specgram`, defaulting to `window_hanning`, with the literal
string none selecting `window_none`) are not modelled: samples are exact
rationals here and the window function is absorbed into the abstract
spectrogram core passed to `transform`. -/
structure SpecConfig where
  padTo : Option ℤ
  NFFT : ℤ
  noverlap : ℚ
  clip : ℚ
  log : Bool
  flatten : Bool
  transpose : Bool

/-- `SpectrogramTransformer.__init__`: a `noverlap` argument below 1 is a
fraction and is replaced by `int(NFFT * noverlap)` at construction. -/
def SpectrogramTransformer.init (padTo : Option ℤ) (NFFT : ℤ)
    (noverlap : ℚ) (clip : ℚ) (log flatten transpose : Bool) : SpecConfig :=
  { padTo := padTo
    NFFT := NFFT
    noverlap := if noverlap < 1 then ((pyInt ((NFFT : ℚ) * noverlap) : ℤ) : ℚ) else noverlap
    clip := clip
    log := log
    flatten := flatten
    transpose := transpose }

/-- The ValueError message raised by matplotlib when `noverlap >= NFFT`. -/
def noverlapMsg : String :=
  "noverlap must be less than NFFT"

/-- The ValueError message raised by numpy when a per-signal result does
not fit the slot of the preallocated output array. -/
def broadcastMsg : String :=
  "could not broadcast input array"

/-- Models the external call `mlab.specgram(x, NFFT, Fs=2000, pad_to,
noverlap, window)`: matplotlib raises `ValueError` when
`noverlap >= NFFT`, otherwise it returns the power matrix `Pxx` (rows =
frequency bins) and the ascending frequency vector `freqs`.  The windowed
FFT itself is external (out of scope) and is supplied as `core`. -/
def mlabSpecgram (cfg : SpecConfig)
    (core : List ℚ → List (List ℚ) × List ℚ) (x : List ℚ) :
    Except String (List (List ℚ) × List ℚ) :=
  if (cfg.NFFT : ℚ) ≤ cfg.noverlap then Except.error noverlapMsg
  else Except.ok (core x)

/-- `freqs.searchsorted(v, side='right')` on the ascending `freqs` array:
the insertion index keeping order, i.e. the number of entries `≤ v`. -/
def searchsortedRight (a : List ℚ) (v : ℚ) : ℕ :=
  a.countP (fun f => decide (f ≤ v))

/-- Lines 72-74 of `transform`: when `clip < 1000.0`, keep only the
frequency rows up to the insertion index of `clip` in `freqs`. -/
def clipStep (clip : ℚ) (freqs : List ℚ) (Pxx : List (List ℚ)) : List (List ℚ) :=
  if clip < 1000 then Pxx.take (searchsortedRight freqs clip)
  else Pxx

/-- Row-major flattening of a matrix (`Pxx.flatten()`). -/
def flattenM (m : List (List ℚ)) : List ℚ :=
  m.flatten

/-- The per-signal post-processing of `Pxx` inside `transform`: optional
elementwise `10 * log10`, optional frequency clipping, optional transpose.
`lg` models the external `np.log10`. -/
def processPxx (cfg : SpecConfig) (lg : ℚ → ℚ)
    (Pxx : List (List ℚ)) (freqs : List ℚ) : List (List ℚ) :=
  let P1 := if cfg.log then Pxx.map (fun row => row.map (fun p => 10 * lg p)) else Pxx
  let P2 := clipStep cfg.clip freqs P1
  if cfg.transpose then P2.transpose else P2

/-- The slot shape the lazily allocated output array reserves per signal:
`Pxx.size` when flattening, else `(Pxx.shape[0], Pxx.shape[1])`. -/
def shapeOfP (flatten : Bool) (P : List (List ℚ)) : List ℕ :=
  if flatten then [(flattenM P).length]
  else [P.length, (P.headD []).length]

/-- The output array `X_prime` being filled: the per-slot shape fixed by
the first processed signal, and the flat (row-major) data of each slot
written so far.  An ndarray is exactly its shape plus its flat data. -/
structure SpecAcc where
  rowShape : List ℕ
  entries : List (List ℚ)
  deriving DecidableEq

/-- The loop of `SpectrogramTransformer.transform`: per signal, call
`mlab.specgram` (propagating its ValueError), post-process `Pxx`, allocate
the output on the first signal, then write each result into its slot;
numpy raises when a later result does not match the slot shape (a
size-one broadcast of a mismatched result is not exercised here and is
modelled as the same error). -/
def specGo (cfg : SpecConfig) (core : List ℚ → List (List ℚ) × List ℚ)
    (lg : ℚ → ℚ) (acc : Option SpecAcc) :
    List (List ℚ) → Except String (Option SpecAcc)
  | [] => Except.ok acc
  | x :: rest =>
    match mlabSpecgram cfg core x with
    | Except.error e => Except.error e
    | Except.ok pf =>
      let P := processPxx cfg lg pf.1 pf.2
      match acc with
      | none =>
        specGo cfg core lg (some ⟨shapeOfP cfg.flatten P, [flattenM P]⟩) rest
      | some a =>
        if shapeOfP cfg.flatten P = a.rowShape then
          specGo cfg core lg (some ⟨a.rowShape, a.entries ++ [flattenM P]⟩) rest
        else Except.error broadcastMsg

/-- `SpectrogramTransformer.transform`: starts with `X_prime = None` and
returns it unchanged (`none`) when no signal was processed. -/
def SpectrogramTransformer.transform (cfg : SpecConfig)
    (core : List ℚ → List (List ℚ) × List ℚ) (lg : ℚ → ℚ)
    (X : List (List ℚ)) : Except String (Option SpecAcc) :=
  specGo cfg core lg none X

/-- A 3-D numpy batch of shape `(N, A, B)`: the shape plus the lookup. -/
structure Batch3 where
  N : ℕ
  A : ℕ
  B : ℕ
  data : Fin N → Fin A → Fin B → ℚ

/-- A batch whose entries all hold the same value. -/
def constBatch (N A B : ℕ) (c : ℚ) : Batch3 :=
  ⟨N, A, B, fun _ _ _ => c⟩

/-- `np.min` on the elements of a 1-D array (a reduce over `min`;
numpy raises on an empty array, so the empty case is a junk value that no
theorem below relies on). -/
def npmin : List ℚ → ℚ
  | [] => 0
  | x :: xs => xs.foldl min x

/-- `np.max` on the elements of a 1-D array. -/
def npmax : List ℚ → ℚ
  | [] => 0
  | x :: xs => xs.foldl max x

/-- `np.mean`: sum divided by length. -/
def npmean (l : List ℚ) : ℚ :=
  l.sum / (l.length : ℚ)

/-- `np.var` with the default `ddof=0`: mean squared deviation. -/
def npvar (l : List ℚ) : ℚ :=
  (l.map (fun x => (x - npmean l) ^ 2)).sum / (l.length : ℚ)

/-- Order-preserving insertion, the building block of `sortQ`. -/
def insertSorted (x : ℚ) : List ℚ → List ℚ
  | [] => [x]
  | y :: ys => if x ≤ y then x :: y :: ys else y :: insertSorted x ys

/-- Ascending sort of a 1-D array (models `np.sort`). -/
def sortQ (l : List ℚ) : List ℚ :=
  l.foldr insertSorted []

/-- `np.median`: middle element of the sorted array, or the average of
the two middle elements when the length is even. -/
def npmedian (l : List ℚ) : ℚ :=
  if l.length % 2 = 1 then (sortQ l).getD (l.length / 2) 0
  else ((sortQ l).getD (l.length / 2 - 1) 0 + (sortQ l).getD (l.length / 2) 0) / 2

/-- `np.ptp`: peak-to-peak range, max minus min. -/
def npptp (l : List ℚ) : ℚ :=
  npmax l - npmin l

/-- `self.stats = [np.min, np.max, np.mean, np.var, np.median, np.ptp]`
from `StatsTransformer.__init__` (its inner `percentile` helper is dead
code and carries no behavior). -/
def statsList : List (List ℚ → ℚ) :=
  [npmin, npmax, npmean, npvar, npmedian, npptp]

/-- `stat(X_i, axis=self.axis)` on a 2-D slice: reduce columns when
`axis = 0` (a vector of length `B`), rows when `axis = 1` (length `A`). -/
def axisReduce (st : List ℚ → ℚ) (axis : ℕ) {A B : ℕ}
    (M : Fin A → Fin B → ℚ) : List ℚ :=
  if axis = 0 then List.ofFn (fun j : Fin B => st (List.ofFn (fun i : Fin A => M i j)))
  else List.ofFn (fun i : Fin A => st (List.ofFn (fun j : Fin B => M i j)))

/-- One output row of `StatsTransformer`: the six statistics vectors
written into consecutive blocks `out[i, n_bins*j : n_bins*(j+1)]`. -/
def statsRow (axis : ℕ) {A B : ℕ} (M : Fin A → Fin B → ℚ) : List ℚ :=
  (statsList.map (fun st => axisReduce st axis M)).flatten

/-- `StatsTransformer.transform`: `n_bins` is defined only for
`axis` 0 (→ `X.shape[2]`) or 1 (→ `X.shape[1]`); any other axis leaves
`n_bins` unbound and the call fails (modelled as `none`). -/
def StatsTransformer.transform (axis : ℕ) (X : Batch3) :
    Option (List (List ℚ)) :=
  if axis = 0 ∨ axis = 1 then
    some (List.ofFn (fun i : Fin X.N => statsRow axis (X.data i)))
  else none

/-- `WhitenerTransformer`: `self.pca` exists only after `fit` assigned it
(the fitted sklearn PCA model is external and is modelled as the map it
applies to the row-flattened batch). -/
structure WhitenerTransformer where
  n_components : Option ℕ
  pca : Option (List (List ℚ) → List (List ℚ))

/-- `WhitenerTransformer.__init__`: stores `n_components`; no `pca`
attribute yet. -/
def WhitenerTransformer.init (nc : Option ℕ) : WhitenerTransformer :=
  ⟨nc, none⟩

/-- `WhitenerTransformer.fit`: stores the externally fitted PCA model. -/
def WhitenerTransformer.fit (w : WhitenerTransformer)
    (fitted : List (List ℚ) → List (List ℚ)) : WhitenerTransformer :=
  { w with pca := some fitted }

/-- `_flatten`: reshape `(N, A, B)` to `(N*A, B)` row-major. -/
def flattenBatch (X : Batch3) : List (List ℚ) :=
  (List.ofFn (fun i : Fin X.N =>
    List.ofFn (fun a : Fin X.A =>
      List.ofFn (fun b : Fin X.B => X.data i a b)))).flatten

/-- The AttributeError Python raises when `transform` reads `self.pca`
on an instance that was never fitted. -/
def noPcaMsg : String :=
  "AttributeError: WhitenerTransformer object has no attribute pca"

/-- `WhitenerTransformer.transform`: reading `self.pca` before `fit`
raises; otherwise the fitted model is applied to the flattened batch (the
final reshape of the result back to the leading input dimensions is
index bookkeeping on the same data and is not needed by the claims). -/
def WhitenerTransformer.transform (w : WhitenerTransformer) (X : Batch3) :
    Except String (List (List ℚ)) :=
  match w.pca with
  | none => Except.error noPcaMsg
  | some m => Except.ok (m (flattenBatch X))

/-- The ValueError numpy raises when `reshape` is given a size that does
not match the element count. -/
def reshapeMsg : String :=
  "cannot reshape array"

/-- `np.reshape` of a flat element list to shape `(N, A, B)`: raises
unless the element count matches, else regroups the data row-major. -/
def npReshape3 (l : List ℚ) (N A B : ℕ) : Except String Batch3 :=
  if l.length = N * A * B then
    Except.ok ⟨N, A, B, fun i a b => l.getD ((i.val * A + a.val) * B + b.val) 0⟩
  else Except.error reshapeMsg

/-- `FuncTransformer.transform`: the source computes an unused flattened
view `_X = X.reshape((X.shape[0], -1))`, applies `self.func` to `X`
itself (the supplied function is external; its returned ndarray is
modelled by its row-major element list), and reshapes the result to
`X.shape` — which numpy rejects on an element-count mismatch. -/
def FuncTransformer.transform (func : Batch3 → List ℚ) (X : Batch3) :
    Except String Batch3 :=
  npReshape3 (func X) X.N X.A X.B

/-- `noise = 1e-4 * np.random.rand(X.shape[1]) - 0.5`: `rand` holds the
values drawn by `np.random.rand` (each in `[0,1)`); note the expression
scales by `1e-4` first and subtracts `0.5` afterwards. -/
def noiseVector (rand : List ℚ) : List ℚ :=
  rand.map (fun r => (1 / 10000 : ℚ) * r - 1 / 2)

/-- `FilterTransformer.transform`: draws one noise vector per call when
`self.noise` is set, then for each row executes `x += noise` — an
in-place update of the caller's row, modelled by returning the final
state of `X` alongside the output — and stores `filter(x)` in the fresh
output array.  `filt` is the externally supplied filter (with its
positional arguments applied); elementwise `+=` is `zipWith`, and the
noise vector has length `X.shape[1]`, the row length. -/
def FilterTransformer.transform (filt : List ℚ → List ℚ) (noiseOn : Bool)
    (rand : List ℚ) (X : List (List ℚ)) :
    List (List ℚ) × List (List ℚ) :=
  let step : List ℚ → List ℚ :=
    fun x => if noiseOn then List.zipWith (fun a b => a + b) x (noiseVector rand) else x
  (X.map (fun x => filt (step x)), X.map step)

/-- One first difference along axis 1: `out[i, t, b] = X[i, t+1, b] -
X[i, t, b]`, shrinking axis 1 by one. -/
def diffOnce (X : Batch3) : Batch3 :=
  { N := X.N
    A := X.A - 1
    B := X.B
    data := fun i t b =>
      X.data i ⟨t.val + 1, by have h := t.isLt; omega⟩ b -
      X.data i ⟨t.val, by have h := t.isLt; omega⟩ b }

/-- `np.diff(X, n=n, axis=1)`: the first difference iterated `n` times. -/
def npDiffAxis1 (n : ℕ) (X : Batch3) : Batch3 :=
  diffOnce^[n] X

/-- Result of `DiffTransformer.transform`: the differenced 3-D batch,
or, when `self.flatten` is set, its reshape to 2-D. -/
inductive DiffOut where
  | cube : Batch3 → DiffOut
  | flat : (Y : Batch3) → (Fin Y.N → Fin (Y.A * Y.B) → ℚ) → DiffOut

/-- Row index recovered from a flat row-major index below `A * B`. -/
def divIdx (A B k : ℕ) (h : k < A * B) : Fin A :=
  ⟨k / B, by
    rcases Nat.eq_zero_or_pos B with hB0 | hB0
    · rw [hB0, Nat.mul_zero] at h; omega
    · exact Nat.div_lt_of_lt_mul (by rw [Nat.mul_comm] at h; exact h)⟩

/-- Column index recovered from a flat row-major index below `A * B`. -/
def modIdx (A B k : ℕ) (h : k < A * B) : Fin B :=
  ⟨k % B, by
    rcases Nat.eq_zero_or_pos B with hB0 | hB0
    · rw [hB0, Nat.mul_zero] at h; omega
    · exact Nat.mod_lt _ hB0⟩

/-- `diff.reshape((diff.shape[0], diff.shape[1] * diff.shape[2]))`:
row-major regrouping of the trailing two axes. -/
def reshape23 (Y : Batch3) : Fin Y.N → Fin (Y.A * Y.B) → ℚ :=
  fun i k =>
    Y.data i (divIdx Y.A Y.B k.val k.isLt) (modIdx Y.A Y.B k.val k.isLt)

/-- `DiffTransformer.transform`: the n-th discrete difference along
axis 1, optionally flattened to 2-D. -/
def DiffTransformer.transform (n : ℕ) (flatten : Bool) (X : Batch3) : DiffOut :=
  let diff := npDiffAxis1 n X
  if flatten then DiffOut.flat diff (reshape23 diff) else DiffOut.cube diff

/-- The length of the time axis of a `DiffTransformer` result (the
pre-flatten axis-1 extent in either representation). -/
def DiffOut.timeDim : DiffOut → ℕ
  | DiffOut.cube Y => Y.A
  | DiffOut.flat Y _ => Y.A

/-- C10: an empty batch (N = 0 signals) leaves the lazily allocated
output at its `None` placeholder: `transform` succeeds and returns no
output array, not an empty `(0, F*W)` feature batch. -/
theorem spectrogram_empty_batch_none :
    ∀ (cfg : SpecConfig) (core : List ℚ → List (List ℚ) × List ℚ)
      (lg : ℚ → ℚ),
      SpectrogramTransformer.transform cfg core lg [] = Except.ok none :=
  fun _ _ _ => rfl

/-- C8: on a `WhitenerTransformer` that was constructed but never
fitted, `transform` reads the absent `pca` attribute and fails with the
not-fitted error instead of producing an output. -/
theorem whitener_unfit_transform_errors :
    ∀ (nc : Option ℕ) (X : Batch3),
      (WhitenerTransformer.init nc).transform X = Except.error noPcaMsg :=
  fun _ _ => rfl

/-- C3 (code bug evidence): `FilterTransformer` with noise enabled and
the identity filter, on the batch `[[0]]` with random draw `[0]`,
executes `x += noise` in place: after the call the caller's array holds
`[[-1/2]]`, not its original value `[[0]]` — the input is mutated. -/
theorem filter_noise_mutates_input :
    FilterTransformer.transform (fun x => x) true [0] [[0]] =
      ([[-(1 / 2)]], [[-(1 / 2)]]) ∧
    ([[-(1 / 2)]] : List (List ℚ)) ≠ [[0]] := by
  constructor
  · simp [FilterTransformer.transform, noiseVector]
  · simp

/-- C4 (code bug evidence): the perturbation is
`1e-4 * np.random.rand(T) - 0.5`, which scales by `1e-4` before
subtracting `0.5`: the draw `0` yields the noise value `-1/2`, far
outside the claimed range `[-0.5e-4, 0.5e-4]`. -/
theorem filter_noise_amplitude_bug :
    noiseVector [0] = [-(1 / 2)] ∧
    ¬ (-(1 / 20000 : ℚ) ≤ -(1 / 2) ∧ (-(1 / 2) : ℚ) ≤ 1 / 20000) := by
  constructor
  · simp [noiseVector]
  · intro h
    exact absurd h.1 (by norm_num)

/-- C5: a `noverlap` argument strictly below 1 is stored as the integer
truncation `int(NFFT * noverlap)` at construction; an argument `≥ 1` is
stored unchanged. -/
theorem spectrogram_noverlap_fraction_init :
    ∀ (padTo : Option ℤ) (NFFT : ℤ) (nov clip : ℚ) (lg fl tr : Bool),
      (nov < 1 →
        (SpectrogramTransformer.init padTo NFFT nov clip lg fl tr).noverlap =
          ((pyInt ((NFFT : ℚ) * nov) : ℤ) : ℚ)) ∧
      (1 ≤ nov →
        (SpectrogramTransformer.init padTo NFFT nov clip lg fl tr).noverlap = nov) := by
  intro padTo NFFT nov clip lg fl tr
  constructor
  · intro h
    simp [SpectrogramTransformer.init, if_pos h]
  · intro h
    simp [SpectrogramTransformer.init, if_neg (not_lt.mpr h)]

/-- Witness for C5 at `NFFT = 256`: the fraction `3/4` is stored as
`int(256 * 3/4)` and the absolute count `200` is stored unchanged. -/
theorem spectrogram_noverlap_fraction_init_witness :
    (SpectrogramTransformer.init none 256 (3 / 4) 1000 true true false).noverlap =
      ((pyInt ((256 : ℚ) * (3 / 4)) : ℤ) : ℚ) ∧
    (SpectrogramTransformer.init none 256 200 1000 true true false).noverlap = 200 :=
  ⟨(spectrogram_noverlap_fraction_init none 256 (3 / 4) 1000 true true false).1 (by norm_num),
   (spectrogram_noverlap_fraction_init none 256 200 1000 true true false).2 (by norm_num)⟩

/-- C9: `FuncTransformer.transform` reshapes the supplied function's
output back to the input's shape through `np.reshape`, which checks the
element count: a mismatch fails with the reshape ValueError, and on a
match the result is an array of the input's shape — no unverified
reshape can corrupt the output silently. -/
theorem func_transform_reshape_check :
    ∀ (func : Batch3 → List ℚ) (X : Batch3),
      ((func X).length ≠ X.N * X.A * X.B →
        FuncTransformer.transform func X = Except.error reshapeMsg) ∧
      ((func X).length = X.N * X.A * X.B →
        ∃ Y : Batch3, FuncTransformer.transform func X = Except.ok Y ∧
          Y.N = X.N ∧ Y.A = X.A ∧ Y.B = X.B) := by
  intro func X
  constructor
  · intro h
    simp [FuncTransformer.transform, npReshape3, if_neg h]
  · intro h
    exact ⟨⟨X.N, X.A, X.B,
      fun i a b => (func X).getD ((i.val * X.A + a.val) * X.B + b.val) 0⟩,
      by simp [FuncTransformer.transform, npReshape3, if_pos h], rfl, rfl, rfl⟩

/-- Witness for C9 on a one-element batch: a function returning two
elements is rejected with the reshape error, a function returning one
element is reshaped to the input's shape. -/
theorem func_transform_reshape_check_witness :
    (FuncTransformer.transform (fun _ => [1, 2]) (constBatch 1 1 1 0) =
      Except.error reshapeMsg) ∧
    (∃ Y : Batch3, FuncTransformer.transform (fun _ => [7]) (constBatch 1 1 1 0) =
      Except.ok Y ∧ Y.N = 1 ∧ Y.A = 1 ∧ Y.B = 1) :=
  ⟨(func_transform_reshape_check (fun _ => [1, 2]) (constBatch 1 1 1 0)).1 (by decide),
   (func_transform_reshape_check (fun _ => [7]) (constBatch 1 1 1 0)).2 (by decide)⟩

/-- The `clip` field does not feed the spectrogram call, the lazy
allocation, or the shape check, so running the loop with any disabled
clip value is the same as running it with the default 1000. -/
theorem specGo_clip_congr (cfg : SpecConfig) (core : List ℚ → List (List ℚ) × List ℚ)
    (lg : ℚ → ℚ) (h : ¬ cfg.clip < 1000) (X : List (List ℚ)) :
    ∀ acc : Option SpecAcc,
      specGo { cfg with clip := 1000 } core lg acc X = specGo cfg core lg acc X := by
  induction X with
  | nil => intro acc; rfl
  | cons x rest ih =>
    intro acc
    have hp : ∀ P f, processPxx { cfg with clip := 1000 } lg P f = processPxx cfg lg P f := by
      intro P f
      simp [processPxx, clipStep, h]
    simp only [specGo]
    have hm : mlabSpecgram { cfg with clip := 1000 } core x = mlabSpecgram cfg core x := rfl
    rw [hm]
    cases mlabSpecgram cfg core x with
    | error e => rfl
    | ok pf =>
      simp only [hp]
      cases acc with
      | none => exact ih _
      | some a =>
        dsimp only
        by_cases hsh : shapeOfP cfg.flatten (processPxx cfg lg pf.1 pf.2) = a.rowShape
        · rw [if_pos hsh, if_pos hsh]
          exact ih _
        · rw [if_neg hsh, if_neg hsh]

/-- C2: the clip step keeps a prefix of the frequency rows of the
per-signal spectrogram, so it never increases their number; and for any
`clip ≥ 1000.0` the clip branch is skipped, so the transform output is
identical to the output with clipping disabled (the default 1000.0). -/
theorem spectrogram_clip_noop :
    (∀ (clip : ℚ) (freqs : List ℚ) (Pxx : List (List ℚ)),
      (clipStep clip freqs Pxx).length ≤ Pxx.length) ∧
    (∀ (cfg : SpecConfig) (core : List ℚ → List (List ℚ) × List ℚ)
       (lg : ℚ → ℚ) (X : List (List ℚ)),
      1000 ≤ cfg.clip →
      SpectrogramTransformer.transform cfg core lg X =
        SpectrogramTransformer.transform { cfg with clip := 1000 } core lg X) := by
  constructor
  · intro clip freqs Pxx
    unfold clipStep
    split
    · rw [List.length_take]
      exact min_le_right _ _
    · exact le_rfl
  · intro cfg core lg X h
    exact (specGo_clip_congr cfg core lg (not_lt.mpr h) X none).symm

/-- Witness for C2: a transformer with `clip = 2000` produces the same
output as the default `clip = 1000` on a two-signal batch. -/
theorem spectrogram_clip_noop_witness :
    SpectrogramTransformer.transform ⟨none, 256, 200, 2000, true, true, false⟩
        (fun _ => ([[1, 2]], [0, 500])) id [[1], [2]] =
      SpectrogramTransformer.transform ⟨none, 256, 200, 1000, true, true, false⟩
        (fun _ => ([[1, 2]], [0, 500])) id [[1], [2]] :=
  spectrogram_clip_noop.2 ⟨none, 256, 200, 2000, true, true, false⟩
    (fun _ => ([[1, 2]], [0, 500])) id [[1], [2]] (by norm_num)

/-- C1 counterexample: with `NFFT = 256` and `noverlap = 300` the
configuration is invalid, yet construction succeeds and the first call
to `transform` — on an empty batch — raises nothing and returns the
`None` placeholder, so the rejection promised "at construction or at the
first call to transform" does not happen on this call. -/
theorem spectrogram_noverlap_reject_counterexample :
    (((⟨none, 256, 300, 1000, true, true, false⟩ : SpecConfig).NFFT : ℚ) ≤
      (⟨none, 256, 300, 1000, true, true, false⟩ : SpecConfig).noverlap) ∧
    SpectrogramTransformer.transform ⟨none, 256, 300, 1000, true, true, false⟩
      (fun _ => ([[1]], [0])) id [] = Except.ok none := by
  constructor
  · norm_num
  · rfl

/-- C1 (amended): an invalid `noverlap ≥ NFFT` configuration passes
construction, and every call to `transform` on a nonempty batch fails
with the matplotlib configuration error; no call — empty batch included —
ever produces an output array. -/
theorem spectrogram_noverlap_reject_amended :
    ∀ (cfg : SpecConfig) (core : List ℚ → List (List ℚ) × List ℚ)
      (lg : ℚ → ℚ) (X : List (List ℚ)),
      (cfg.NFFT : ℚ) ≤ cfg.noverlap →
      (X ≠ [] →
        SpectrogramTransformer.transform cfg core lg X = Except.error noverlapMsg) ∧
      (∀ out : SpecAcc,
        SpectrogramTransformer.transform cfg core lg X ≠ Except.ok (some out)) := by
  intro cfg core lg X h
  cases X with
  | nil =>
    refine ⟨fun hne => absurd rfl hne, ?_⟩
    intro out hout
    simp [SpectrogramTransformer.transform, specGo] at hout
  | cons x rest =>
    have he : SpectrogramTransformer.transform cfg core lg (x :: rest) =
        Except.error noverlapMsg := by
      simp [SpectrogramTransformer.transform, specGo, mlabSpecgram, if_pos h]
    refine ⟨fun _ => he, ?_⟩
    intro out hout
    rw [he] at hout
    exact Except.noConfusion hout

/-- Witness for the amended C1: `NFFT = 256`, `noverlap = 300`, one
signal: the call fails with the configuration error and yields no
output array. -/
theorem spectrogram_noverlap_reject_amended_witness :
    SpectrogramTransformer.transform ⟨none, 256, 300, 1000, true, true, false⟩
        (fun _ => ([[1]], [0])) id [[1, 2]] = Except.error noverlapMsg ∧
    ∀ out : SpecAcc,
      SpectrogramTransformer.transform ⟨none, 256, 300, 1000, true, true, false⟩
        (fun _ => ([[1]], [0])) id [[1, 2]] ≠ Except.ok (some out) := by
  have h := spectrogram_noverlap_reject_amended ⟨none, 256, 300, 1000, true, true, false⟩
    (fun _ => ([[1]], [0])) id [[1, 2]] (by norm_num)
  exact ⟨h.1 (by simp), h.2⟩

/-- Folding `min` over copies of `c` starting from `c` stays at `c`. -/
theorem foldl_min_replicate (m : ℕ) (c : ℚ) :
    (List.replicate m c).foldl min c = c := by
  induction m with
  | zero => rfl
  | succ k ih =>
    rw [List.replicate_succ, List.foldl_cons, min_self]
    exact ih

/-- Folding `max` over copies of `c` starting from `c` stays at `c`. -/
theorem foldl_max_replicate (m : ℕ) (c : ℚ) :
    (List.replicate m c).foldl max c = c := by
  induction m with
  | zero => rfl
  | succ k ih =>
    rw [List.replicate_succ, List.foldl_cons, max_self]
    exact ih

/-- The minimum of a nonempty constant array is the constant. -/
theorem npmin_replicate (k : ℕ) (c : ℚ) (h : 1 ≤ k) :
    npmin (List.replicate k c) = c := by
  cases k with
  | zero => omega
  | succ m =>
    rw [List.replicate_succ]
    show (List.replicate m c).foldl min c = c
    exact foldl_min_replicate m c

/-- The maximum of a nonempty constant array is the constant. -/
theorem npmax_replicate (k : ℕ) (c : ℚ) (h : 1 ≤ k) :
    npmax (List.replicate k c) = c := by
  cases k with
  | zero => omega
  | succ m =>
    rw [List.replicate_succ]
    show (List.replicate m c).foldl max c = c
    exact foldl_max_replicate m c

/-- The mean of a nonempty constant array is the constant. -/
theorem npmean_replicate (k : ℕ) (c : ℚ) (h : 1 ≤ k) :
    npmean (List.replicate k c) = c := by
  have hk : ((k : ℚ)) ≠ 0 := Nat.cast_ne_zero.mpr (by omega)
  rw [npmean, List.sum_replicate, List.length_replicate, nsmul_eq_mul]
  exact mul_div_cancel_left₀ c hk

/-- The variance of a nonempty constant array is zero. -/
theorem npvar_replicate (k : ℕ) (c : ℚ) (h : 1 ≤ k) :
    npvar (List.replicate k c) = 0 := by
  rw [npvar, List.map_replicate, npmean_replicate k c h]
  simp

/-- Inserting `c` into copies of `c` yields one more copy. -/
theorem insertSorted_replicate_self (m : ℕ) (c : ℚ) :
    insertSorted c (List.replicate m c) = List.replicate (m + 1) c := by
  cases m with
  | zero => rfl
  | succ n =>
    rw [List.replicate_succ, insertSorted, if_pos (le_refl c)]
    rfl

/-- Sorting a constant array leaves it unchanged. -/
theorem sortQ_replicate (k : ℕ) (c : ℚ) :
    sortQ (List.replicate k c) = List.replicate k c := by
  induction k with
  | zero => rfl
  | succ m ih =>
    rw [List.replicate_succ]
    show insertSorted c (sortQ (List.replicate m c)) = _
    rw [ih]
    exact insertSorted_replicate_self m c

/-- Any in-range position of a constant array holds the constant. -/
theorem getD_replicate (k i : ℕ) (c : ℚ) (h : i < k) :
    (List.replicate k c).getD i 0 = c := by
  induction k generalizing i with
  | zero => omega
  | succ m ih =>
    cases i with
    | zero => rfl
    | succ j =>
      rw [List.replicate_succ]
      show (List.replicate m c).getD j 0 = c
      exact ih j (by omega)

/-- The median of a nonempty constant array is the constant. -/
theorem npmedian_replicate (k : ℕ) (c : ℚ) (h : 1 ≤ k) :
    npmedian (List.replicate k c) = c := by
  rw [npmedian, sortQ_replicate, List.length_replicate]
  by_cases hp : k % 2 = 1
  · rw [if_pos hp]
    exact getD_replicate k (k / 2) c (by omega)
  · rw [if_neg hp, getD_replicate k (k / 2 - 1) c (by omega),
      getD_replicate k (k / 2) c (by omega)]
    ring

/-- The peak-to-peak range of a nonempty constant array is zero. -/
theorem npptp_replicate (k : ℕ) (c : ℚ) (h : 1 ≤ k) :
    npptp (List.replicate k c) = 0 := by
  rw [npptp, npmax_replicate k c h, npmin_replicate k c h, sub_self]

/-- Each output row of `StatsTransformer` has one block of `n_bins`
values per statistic, six blocks in total. -/
theorem statsRow_length (axis : ℕ) {A B : ℕ} (M : Fin A → Fin B → ℚ) :
    (statsRow axis M).length = 6 * (if axis = 0 then B else A) := by
  by_cases h0 : axis = 0
  · simp [statsRow, statsList, axisReduce, h0]
    ring
  · simp [statsRow, statsList, axisReduce, h0]
    ring

/-- Reducing a constant matrix along either axis yields `n_bins` copies
of the statistic of a constant vector. -/
theorem axisReduce_const (st : List ℚ → ℚ) (axis : ℕ) (A B : ℕ) (c : ℚ) :
    axisReduce st axis (fun (_ : Fin A) (_ : Fin B) => c) =
      if axis = 0 then List.replicate B (st (List.replicate A c))
      else List.replicate A (st (List.replicate B c)) := by
  by_cases h0 : axis = 0
  · simp [axisReduce, h0, List.ofFn_const]
  · simp [axisReduce, h0, List.ofFn_const]

/-- C6: for a valid axis (0 or 1), `StatsTransformer.transform` yields
one row per signal of width exactly `6 * n_bins`, the six statistics in
blocks min, max, mean, var, median, ptp; and on a constant batch every
bin of each block is the constant for min/max/mean/median and zero for
var/ptp. -/
theorem stats_transform_width_and_constant :
    (∀ (X : Batch3) (axis : ℕ), axis = 0 ∨ axis = 1 →
      ∃ rows : List (List ℚ),
        StatsTransformer.transform axis X = some rows ∧
        rows.length = X.N ∧
        ∀ r ∈ rows, r.length = 6 * (if axis = 0 then X.B else X.A)) ∧
    (∀ (N A B : ℕ) (c : ℚ) (axis : ℕ), 1 ≤ A → 1 ≤ B → axis = 0 ∨ axis = 1 →
      StatsTransformer.transform axis (constBatch N A B c) =
        some (List.replicate N
          (List.replicate (if axis = 0 then B else A) c ++
            (List.replicate (if axis = 0 then B else A) c ++
              (List.replicate (if axis = 0 then B else A) c ++
                (List.replicate (if axis = 0 then B else A) 0 ++
                  (List.replicate (if axis = 0 then B else A) c ++
                    List.replicate (if axis = 0 then B else A) 0))))))) := by
  constructor
  · intro X axis hax
    refine ⟨List.ofFn (fun i : Fin X.N => statsRow axis (X.data i)), ?_, ?_, ?_⟩
    · rw [StatsTransformer.transform, if_pos hax]
    · exact List.length_ofFn _
    · intro r hr
      rw [List.mem_ofFn] at hr
      obtain ⟨i, rfl⟩ := hr
      exact statsRow_length axis (X.data i)
  · intro N A B c axis hA hB hax
    have hrow : statsRow axis (fun (_ : Fin A) (_ : Fin B) => c) =
        List.replicate (if axis = 0 then B else A) c ++
          (List.replicate (if axis = 0 then B else A) c ++
            (List.replicate (if axis = 0 then B else A) c ++
              (List.replicate (if axis = 0 then B else A) 0 ++
                (List.replicate (if axis = 0 then B else A) c ++
                  List.replicate (if axis = 0 then B else A) 0)))) := by
      rcases hax with h0 | h1
      · subst h0
        simp [statsRow, statsList, axisReduce_const,
          npmin_replicate A c hA, npmax_replicate A c hA, npmean_replicate A c hA,
          npvar_replicate A c hA, npmedian_replicate A c hA, npptp_replicate A c hA]
      · subst h1
        simp [statsRow, statsList, axisReduce_const,
          npmin_replicate B c hB, npmax_replicate B c hB, npmean_replicate B c hB,
          npvar_replicate B c hB, npmedian_replicate B c hB, npptp_replicate B c hB]
    rw [StatsTransformer.transform, if_pos hax]
    show some (List.ofFn (fun _ : Fin N => statsRow axis (fun (_ : Fin A) (_ : Fin B) => c))) = _
    simp only [List.ofFn_const]
    rw [hrow]

/-- Witness for C6: one constant signal of shape `(3, 2)` with value 5,
reduced along axis 1, gives one row of six blocks of three bins each. -/
theorem stats_transform_width_and_constant_witness :
    StatsTransformer.transform 1 (constBatch 1 3 2 5) =
      some (List.replicate 1
        (List.replicate 3 (5 : ℚ) ++
          (List.replicate 3 (5 : ℚ) ++
            (List.replicate 3 (5 : ℚ) ++
              (List.replicate 3 (0 : ℚ) ++
                (List.replicate 3 (5 : ℚ) ++ List.replicate 3 (0 : ℚ))))))) :=
  stats_transform_width_and_constant.2 1 3 2 5 1 (by omega) (by omega) (Or.inr rfl)

/-- The time axis of the n-th difference has extent `T - n` in truncated
natural subtraction, i.e. `max(0, T - n)`. -/
theorem npDiffAxis1_A (n : ℕ) (X : Batch3) : (npDiffAxis1 n X).A = X.A - n := by
  induction n generalizing X with
  | zero => rfl
  | succ m ih =>
    rw [npDiffAxis1, Function.iterate_succ_apply]
    have h := ih (diffOnce X)
    rw [npDiffAxis1] at h
    rw [h]
    show X.A - 1 - m = X.A - (m + 1)
    omega

/-- C7 counterexample: differencing a batch with time axis of length 1
twice yields time dimension 0, which is not exactly 2 smaller than 1 —
`np.diff` clamps the axis at zero instead of shrinking by `n`. -/
theorem diff_time_dim_counterexample :
    (DiffTransformer.transform 2 false (constBatch 1 1 1 0)).timeDim = 0 ∧
    (constBatch 1 1 1 0).A = 1 ∧ ¬ ((0 : ℕ) + 2 = 1) := by
  refine ⟨rfl, rfl, by omega⟩

/-- C7 (amended): `DiffTransformer.transform` computes the n-th discrete
difference along the time axis, whose extent is `max(0, T - n)` — exactly
`n` smaller than the input whenever `n ≤ T`; with `n = 1` each output
element is the difference of consecutive time samples `x[t+1] - x[t]`. -/
theorem diff_transform_amended :
    ∀ (X : Batch3) (n : ℕ),
      DiffTransformer.transform n false X = DiffOut.cube (npDiffAxis1 n X) ∧
      (npDiffAxis1 n X).A = X.A - n ∧
      (n ≤ X.A → (npDiffAxis1 n X).A + n = X.A) ∧
      npDiffAxis1 1 X = diffOnce X ∧
      (∀ (i : Fin X.N) (t : Fin (X.A - 1)) (b : Fin X.B),
        (diffOnce X).data i t b =
          X.data i ⟨t.val + 1, by have ht := t.isLt; omega⟩ b -
          X.data i ⟨t.val, by have ht := t.isLt; omega⟩ b) := by
  intro X n
  refine ⟨rfl, npDiffAxis1_A n X, ?_, rfl, ?_⟩
  · intro h
    rw [npDiffAxis1_A n X]
    omega
  · intro i t b
    rfl

/-- Witness for the amended C7 on a batch with time axis 3: the second
difference has time dimension exactly 2 smaller, and the first
difference at position 0 subtracts consecutive samples. -/
theorem diff_transform_amended_witness :
    ((npDiffAxis1 2 (constBatch 1 3 1 5)).A + 2 = (constBatch 1 3 1 5).A) ∧
    ((diffOnce (constBatch 1 3 1 5)).data ⟨0, by decide⟩ ⟨0, by decide⟩ ⟨0, by decide⟩ =
      (constBatch 1 3 1 5).data ⟨0, by decide⟩ ⟨0 + 1, by decide⟩ ⟨0, by decide⟩ -
      (constBatch 1 3 1 5).data ⟨0, by decide⟩ ⟨0, by decide⟩ ⟨0, by decide⟩) :=
  ⟨(diff_transform_amended (constBatch 1 3 1 5) 2).2.2.1 (by decide),
   (diff_transform_amended (constBatch 1 3 1 5) 1).2.2.2.2
     ⟨0, by decide⟩ ⟨0, by decide⟩ ⟨0, by decide⟩⟩
